import Mathlib

/-!
Verification development for the Apptracker analytics dashboard frontend.

The two stateful cores are shallowly embedded here:

* the shared filters context (`FiltersContext`): the `FiltersState` record,
  its setters, the explicit and timer-driven refresh requests, the
  localStorage persistence effect and the seeding of the state on boot;
* the funnel page (`FunnelPage.tsx`): step-list validation, the structural
  step mutations (add, remove, move up, move down), the per-step derived
  metrics (drop-off, conversion rate, bar width) and the per-project preset
  store.

Conventions of the embedding: wall-clock milliseconds (`Date.now()`) are
passed explicitly as a `Nat` argument; JavaScript `string | null` becomes
`Option String`; JavaScript truthiness of a nullable string (both `null` and
`""` are falsy) is captured by `isPresent`; the TypeScript field `from` is
renamed `fromDate` (`from` is reserved in Lean) and `to` becomes `toDate`
for symmetry.
-/

namespace Apptracker

/-- The `FiltersState` record of FiltersContext. `autoRefreshInterval` is in
seconds (the source type `RefreshInterval` only ever holds 30 or 60);
`refreshToken` holds a `Date.now()` timestamp in milliseconds. -/
structure FiltersState where
  projectKey : Option String
  fromDate : String
  toDate : String
  eventName : String
  userId : String
  anonymousId : String
  autoRefreshEnabled : Bool
  autoRefreshInterval : Nat
  refreshToken : Nat
  deriving Repr, DecidableEq

/-- The `defaultFilters` constant of FiltersContext. -/
def defaultFilters : FiltersState :=
  { projectKey := none
    fromDate := ""
    toDate := ""
    eventName := ""
    userId := ""
    anonymousId := ""
    autoRefreshEnabled := false
    autoRefreshInterval := 30
    refreshToken := 0 }

/-- The operations the context exposes on `FiltersState`, plus the body of
the auto-refresh interval callback (`timerTick`). -/
inductive FilterOp where
  | setProjectKey (v : Option String)
  | setFrom (v : String)
  | setTo (v : String)
  | setEventName (v : String)
  | setUserId (v : String)
  | setAnonymousId (v : String)
  | setAutoRefreshEnabled (v : Bool)
  | setAutoRefreshInterval (v : Nat)
  | triggerRefresh
  | resetFilters
  | timerTick
  deriving Repr, DecidableEq

/-- One setter call (or timer tick) on the state, with the wall-clock time
`now` (milliseconds, `Date.now()`) at which the call runs. `triggerRefresh`
and the interval callback both write `refreshToken := Date.now()`;
`resetFilters` restores every field to its default and also writes
`refreshToken := Date.now()`. -/
def applyOp (now : Nat) (s : FiltersState) : FilterOp → FiltersState
  | .setProjectKey v => { s with projectKey := v }
  | .setFrom v => { s with fromDate := v }
  | .setTo v => { s with toDate := v }
  | .setEventName v => { s with eventName := v }
  | .setUserId v => { s with userId := v }
  | .setAnonymousId v => { s with anonymousId := v }
  | .setAutoRefreshEnabled v => { s with autoRefreshEnabled := v }
  | .setAutoRefreshInterval v => { s with autoRefreshInterval := v }
  | .triggerRefresh => { s with refreshToken := now }
  | .resetFilters => { defaultFilters with refreshToken := now }
  | .timerTick => { s with refreshToken := now }

/-- The operations that issue a refresh request (write `refreshToken`). -/
def FilterOp.isRefresh : FilterOp → Bool
  | .triggerRefresh => true
  | .resetFilters => true
  | .timerTick => true
  | _ => false

/-- C1. The claim states that every `triggerRefresh()` call, timer tick and
`resetFilters()` call leaves `refreshToken` strictly greater than its value
before the call. The code writes `refreshToken := Date.now()`, so a second
refresh request within the same millisecond leaves the token unchanged:
starting from the default state, a `triggerRefresh` at time 5 followed by
another `triggerRefresh` at time 5 does not increase the token. -/
theorem C1_counterexample :
    ¬ ((applyOp 5 defaultFilters .triggerRefresh).refreshToken <
        (applyOp 5 (applyOp 5 defaultFilters .triggerRefresh) .triggerRefresh).refreshToken) := by
  decide

/-- C1 (amended). Every refresh-style call (`triggerRefresh()`, a timer
tick, `resetFilters()`) sets `refreshToken` to the wall-clock time of the
call, hence strictly increases it whenever that time exceeds the previous
token (in particular across calls in distinct milliseconds of a
forward-moving clock); and no other setter changes `refreshToken`. -/
theorem C1_refreshToken_amended (s : FiltersState) (op : FilterOp) (now : Nat) :
    (op.isRefresh = true → (applyOp now s op).refreshToken = now)
    ∧ (op.isRefresh = true → s.refreshToken < now →
        s.refreshToken < (applyOp now s op).refreshToken)
    ∧ (op.isRefresh = false → (applyOp now s op).refreshToken = s.refreshToken) := by
  cases op <;> simp [applyOp, FilterOp.isRefresh]

/-- C1 (witness): the amended theorem applied at the default state, a
`triggerRefresh` and time 3. -/
theorem C1_witness :
    (applyOp 3 defaultFilters .triggerRefresh).refreshToken = 3
    ∧ defaultFilters.refreshToken < (applyOp 3 defaultFilters .triggerRefresh).refreshToken :=
  ⟨(C1_refreshToken_amended defaultFilters .triggerRefresh 3).1 rfl,
   (C1_refreshToken_amended defaultFilters .triggerRefresh 3).2.1 rfl (by decide)⟩

/-! ### Persistence and boot seeding -/

/-- A saved filters record as it comes back from `JSON.parse`: a partial
record (the stored object may lack fields, or carry a stale
`refreshToken`). Mirrors the `Partial<FiltersState>` type argument of
`safeParseJson` in FiltersContext. -/
structure SavedFilters where
  projectKey : Option (Option String) := none
  fromDate : Option String := none
  toDate : Option String := none
  eventName : Option String := none
  userId : Option String := none
  anonymousId : Option String := none
  autoRefreshEnabled : Option Bool := none
  autoRefreshInterval : Option Nat := none
  refreshToken : Option Nat := none
  deriving Repr, DecidableEq

/-- What `localStorage.getItem(STORAGE_KEY)` can yield: nothing stored, a
string that `JSON.parse` rejects, or a parsed record. -/
inductive StoredValue where
  | absent
  | unparsable
  | parsed (v : SavedFilters)
  deriving Repr, DecidableEq

/-- `safeParseJson`: `null` input and parse failures both give `null`; the
`try/catch` means no error ever escapes. -/
def safeParseJson : StoredValue → Option SavedFilters
  | .absent => none
  | .unparsable => none
  | .parsed v => some v

/-- The `useState` initializer of `FiltersProvider`: no saved record means
the defaults; otherwise the JavaScript spread `{...defaultFilters, ...saved,
refreshToken: 0}` — each present saved field wins over the default, and
`refreshToken` is forced back to 0 regardless of what was stored. -/
def initFilters : Option SavedFilters → FiltersState
  | none => defaultFilters
  | some saved =>
    { projectKey := saved.projectKey.getD defaultFilters.projectKey
      fromDate := saved.fromDate.getD defaultFilters.fromDate
      toDate := saved.toDate.getD defaultFilters.toDate
      eventName := saved.eventName.getD defaultFilters.eventName
      userId := saved.userId.getD defaultFilters.userId
      anonymousId := saved.anonymousId.getD defaultFilters.anonymousId
      autoRefreshEnabled := saved.autoRefreshEnabled.getD defaultFilters.autoRefreshEnabled
      autoRefreshInterval := saved.autoRefreshInterval.getD defaultFilters.autoRefreshInterval
      refreshToken := 0 }

/-- C7. Boot seeding: an absent record and an unparsable record both fall
back to the full default state with no error raised (`initFilters` is a
total function of the parse outcome); for every parsed record — whatever
`refreshToken` it carries — the initial `refreshToken` is the zero default,
never the stored value, while each other stored field does seed the
state. -/
theorem C7_init_seeding :
    initFilters (safeParseJson .absent) = defaultFilters
    ∧ initFilters (safeParseJson .unparsable) = defaultFilters
    ∧ defaultFilters.refreshToken = 0
    ∧ (∀ saved : SavedFilters,
        (initFilters (safeParseJson (.parsed saved))).refreshToken = 0)
    ∧ (∀ saved : SavedFilters, ∀ k : Option String, saved.projectKey = some k →
        (initFilters (safeParseJson (.parsed saved))).projectKey = k) := by
  refine ⟨rfl, rfl, rfl, fun saved => rfl, fun saved k hk => ?_⟩
  simp [safeParseJson, initFilters, hk]

/-- C7 (witness): a stored record carrying `projectKey = "p"` and a stale
`refreshToken = 999` seeds the project key but boots with token 0. -/
theorem C7_witness :
    (initFilters (safeParseJson
        (.parsed { projectKey := some (some "p"), refreshToken := some 999 }))).projectKey
      = some "p"
    ∧ (initFilters (safeParseJson
        (.parsed { projectKey := some (some "p"), refreshToken := some 999 }))).refreshToken
      = 0 :=
  ⟨C7_init_seeding.2.2.2.2 { projectKey := some (some "p"), refreshToken := some 999 }
      (some "p") rfl,
    C7_init_seeding.2.2.2.1 { projectKey := some (some "p"), refreshToken := some 999 }⟩

/-- The record the persist effect writes: every `FiltersState` field except
`refreshToken` (the destructuring `const { refreshToken: _ignore, ...toSave }
= filters`). -/
structure PersistedFilters where
  projectKey : Option String
  fromDate : String
  toDate : String
  eventName : String
  userId : String
  anonymousId : String
  autoRefreshEnabled : Bool
  autoRefreshInterval : Nat
  deriving Repr, DecidableEq

/-- The `toSave` rest-object of the persist effect. -/
def toSave (s : FiltersState) : PersistedFilters :=
  { projectKey := s.projectKey
    fromDate := s.fromDate
    toDate := s.toDate
    eventName := s.eventName
    userId := s.userId
    anonymousId := s.anonymousId
    autoRefreshEnabled := s.autoRefreshEnabled
    autoRefreshInterval := s.autoRefreshInterval }

/-- The provider together with the persisted localStorage record. -/
structure Sys where
  filters : FiltersState
  storage : Option PersistedFilters
  deriving Repr, DecidableEq

/-- One setter call followed by the persist effect, which runs on every
`filters` change and overwrites the stored record with `toSave` of the new
state. -/
def stepSys (now : Nat) (sys : Sys) (op : FilterOp) : Sys :=
  let f := applyOp now sys.filters op
  { filters := f, storage := some (toSave f) }

/-- A sequence of setter calls, each with its wall-clock time. -/
def runSys : List (Nat × FilterOp) → Sys → Sys
  | [], sys => sys
  | (now, op) :: rest, sys => runSys rest (stepSys now sys op)

/-- Provider boot: the state is seeded from storage and the persist effect
also runs once on mount. -/
def initSys (sv : StoredValue) : Sys :=
  let f := initFilters (safeParseJson sv)
  { filters := f, storage := some (toSave f) }

theorem runSys_storage_inv (ops : List (Nat × FilterOp)) :
    ∀ sys : Sys, sys.storage = some (toSave sys.filters) →
      (runSys ops sys).storage = some (toSave (runSys ops sys).filters) := by
  induction ops with
  | nil => exact fun sys h => h
  | cons p rest ih => exact fun sys _ => ih (stepSys p.1 sys p.2) rfl

/-- C6. After every sequence of setter calls (starting from any boot
outcome), the persisted record equals `toSave` of the current filter state;
and `toSave` removes exactly `refreshToken`: it keeps every other field
verbatim, and two states differing only in `refreshToken` persist
identically. -/
theorem C6_persistence :
    (∀ (sv : StoredValue) (ops : List (Nat × FilterOp)),
        (runSys ops (initSys sv)).storage
          = some (toSave (runSys ops (initSys sv)).filters))
    ∧ (∀ s : FiltersState,
        (toSave s).projectKey = s.projectKey ∧ (toSave s).fromDate = s.fromDate
        ∧ (toSave s).toDate = s.toDate ∧ (toSave s).eventName = s.eventName
        ∧ (toSave s).userId = s.userId ∧ (toSave s).anonymousId = s.anonymousId
        ∧ (toSave s).autoRefreshEnabled = s.autoRefreshEnabled
        ∧ (toSave s).autoRefreshInterval = s.autoRefreshInterval)
    ∧ (∀ (s : FiltersState) (t : Nat),
        toSave { s with refreshToken := t } = toSave s) := by
  refine ⟨fun sv ops => runSys_storage_inv ops (initSys sv) rfl,
    fun s => ⟨rfl, rfl, rfl, rfl, rfl, rfl, rfl, rfl⟩, fun s t => rfl⟩

/-! ### Auto-refresh scheduler -/

/-- JavaScript truthiness of the nullable `projectKey`: both `null` and the
empty string are falsy, so `if (!filters.projectKey) return` treats an empty
key as absent. -/
def isPresent : Option String → Bool
  | none => false
  | some k => !(k == "")

/-- The dependency array of the auto-refresh effect:
`[autoRefreshEnabled, autoRefreshInterval, projectKey]`. The effect is torn
down and re-run exactly when this triple changes. -/
def depsOf (f : FiltersState) : Bool × Nat × Option String :=
  (f.autoRefreshEnabled, f.autoRefreshInterval, f.projectKey)

/-- A running `setInterval` timer: its handle (`id`) and its period in
milliseconds. -/
structure Timer where
  id : Nat
  periodMs : Nat
  deriving Repr, DecidableEq

/-- The body of the auto-refresh effect: bail out when auto-refresh is
disabled or no project is selected (leaving no timer), otherwise start an
interval with period `autoRefreshInterval * 1000` ms. `nextId` models the
fresh handle `window.setInterval` returns. -/
def effectTimer (nextId : Nat) (f : FiltersState) : Option Timer :=
  if f.autoRefreshEnabled = false then none
  else if isPresent f.projectKey = false then none
  else some { id := nextId, periodMs := f.autoRefreshInterval * 1000 }

/-- The provider together with its (at most one) running interval timer. -/
structure TimerSys where
  filters : FiltersState
  timer : Option Timer
  nextId : Nat
  deriving Repr, DecidableEq

/-- React's effect semantics for the auto-refresh effect after the state
changed to `f`: if the dependency triple is unchanged the effect does not
re-run and the old timer (if any) keeps running; otherwise the cleanup
cancels the old timer and the effect body runs on the new state. -/
def effectStep (sys : TimerSys) (f : FiltersState) : TimerSys :=
  if depsOf f = depsOf sys.filters then
    { sys with filters := f }
  else
    { filters := f, timer := effectTimer sys.nextId f, nextId := sys.nextId + 1 }

/-- One setter call followed by the effect re-evaluation. -/
def stepTimer (now : Nat) (sys : TimerSys) (op : FilterOp) : TimerSys :=
  effectStep sys (applyOp now sys.filters op)

/-- A sequence of setter calls under the effect semantics. -/
def runTimer : List (Nat × FilterOp) → TimerSys → TimerSys
  | [], sys => sys
  | (now, op) :: rest, sys => runTimer rest (stepTimer now sys op)

/-- Provider boot for the scheduler: the effect runs once on mount. -/
def initTimer (sv : StoredValue) : TimerSys :=
  let f := initFilters (safeParseJson sv)
  { filters := f, timer := effectTimer 0 f, nextId := 1 }

/-- The spec's Armed predicate: auto-refresh enabled and a project key
present (non-null and non-empty, by JavaScript truthiness). -/
def Armed (f : FiltersState) : Prop :=
  f.autoRefreshEnabled = true ∧ isPresent f.projectKey = true

instance (f : FiltersState) : Decidable (Armed f) := by
  unfold Armed; infer_instance

/-- The scheduler invariant: a timer runs exactly when the state is armed,
its period is `autoRefreshInterval * 1000` ms, and its handle is below the
next fresh handle. -/
def TimerInv (sys : TimerSys) : Prop :=
  (sys.timer.isSome = true ↔ Armed sys.filters)
  ∧ (match sys.timer with
     | none => True
     | some t => t.periodMs = sys.filters.autoRefreshInterval * 1000 ∧ t.id < sys.nextId)

theorem effectTimer_inv (n : Nat) (f : FiltersState) :
    TimerInv { filters := f, timer := effectTimer n f, nextId := n + 1 } := by
  unfold TimerInv effectTimer Armed
  by_cases he : f.autoRefreshEnabled = false
  · simp [he]
  · by_cases hp : isPresent f.projectKey = false
    · simp [he, hp]
    · simp only [he, hp, if_false, Option.isSome_some]
      refine ⟨⟨fun _ => ⟨?_, ?_⟩, fun _ => rfl⟩, rfl, n.lt_succ_self⟩
      · revert he; cases f.autoRefreshEnabled <;> simp
      · revert hp; cases isPresent f.projectKey <;> simp

theorem effectStep_inv (sys : TimerSys) (f : FiltersState) (h : TimerInv sys) :
    TimerInv (effectStep sys f) := by
  unfold effectStep
  by_cases hdep : depsOf f = depsOf sys.filters
  · simp only [hdep, if_true]
    obtain ⟨he, hi, hk⟩ : f.autoRefreshEnabled = sys.filters.autoRefreshEnabled
        ∧ f.autoRefreshInterval = sys.filters.autoRefreshInterval
        ∧ f.projectKey = sys.filters.projectKey := by
      have := hdep
      unfold depsOf at this
      exact ⟨congrArg Prod.fst this, congrArg (fun p => p.2.1) this,
        congrArg (fun p => p.2.2) this⟩
    unfold TimerInv Armed at h ⊢
    simpa [he, hi, hk] using h
  · simp only [hdep, if_false]
    exact effectTimer_inv sys.nextId f

theorem runTimer_inv (ops : List (Nat × FilterOp)) :
    ∀ sys : TimerSys, TimerInv sys → TimerInv (runTimer ops sys) := by
  induction ops with
  | nil => exact fun sys h => h
  | cons p rest ih =>
    exact fun sys h => ih (stepTimer p.1 sys p.2) (effectStep_inv sys _ h)

/-- C8. The scheduler: across every boot outcome and every sequence of
setter calls, a timer is running exactly when `autoRefreshEnabled` is true
and `projectKey` is present, and any running timer has period
`autoRefreshInterval * 1000` ms (i.e. `autoRefreshInterval` seconds);
whenever a state change touches the dependency triple
(`autoRefreshEnabled`, `autoRefreshInterval`, `projectKey`), the previously
running timer is cancelled — any timer running afterwards is a new one
(fresh handle) with the new state's period, and one runs iff the new state
is armed; and the interval tick's body is exactly `triggerRefresh()`,
setting `refreshToken` to the tick's wall-clock time. -/
theorem C8_scheduler :
    (∀ (sv : StoredValue) (ops : List (Nat × FilterOp)),
        ((runTimer ops (initTimer sv)).timer.isSome = true
          ↔ Armed (runTimer ops (initTimer sv)).filters)
        ∧ (∀ t : Timer, (runTimer ops (initTimer sv)).timer = some t →
            t.periodMs = (runTimer ops (initTimer sv)).filters.autoRefreshInterval * 1000))
    ∧ (∀ (sys : TimerSys) (f : FiltersState), TimerInv sys →
        depsOf f ≠ depsOf sys.filters →
        ((effectStep sys f).timer.isSome = true ↔ Armed f)
        ∧ (∀ t t' : Timer, sys.timer = some t → (effectStep sys f).timer = some t' →
            t'.id ≠ t.id ∧ t'.periodMs = f.autoRefreshInterval * 1000))
    ∧ (∀ (now : Nat) (s : FiltersState),
        applyOp now s .timerTick = applyOp now s .triggerRefresh
        ∧ (applyOp now s .timerTick).refreshToken = now) := by
  refine ⟨fun sv ops => ?_, fun sys f h hdep => ?_, fun now s => ⟨rfl, rfl⟩⟩
  · have hinv : TimerInv (runTimer ops (initTimer sv)) := by
      refine runTimer_inv ops (initTimer sv) ?_
      unfold initTimer
      exact effectTimer_inv 0 _
    obtain ⟨harm, hper⟩ := hinv
    refine ⟨harm, fun t ht => ?_⟩
    rw [ht] at hper
    exact hper.1
  · have hstep : effectStep sys f
        = { filters := f, timer := effectTimer sys.nextId f, nextId := sys.nextId + 1 } := by
      unfold effectStep
      simp [hdep]
    have hinv' : TimerInv (effectStep sys f) := effectStep_inv sys f h
    obtain ⟨harm', hper'⟩ := hinv'
    refine ⟨by simpa [hstep] using harm', fun t t' ht ht' => ?_⟩
    obtain ⟨-, hold⟩ := h
    rw [ht] at hold
    rw [hstep] at ht'
    have ht2 : effectTimer sys.nextId f = some t' := ht'
    unfold effectTimer at ht2
    by_cases he : f.autoRefreshEnabled = false
    · rw [if_pos he] at ht2
      exact absurd ht2 (by simp)
    · by_cases hp : isPresent f.projectKey = false
      · rw [if_neg he, if_pos hp] at ht2
        exact absurd ht2 (by simp)
      · rw [if_neg he, if_neg hp] at ht2
        have heq := Option.some.inj ht2
        have hid : t'.id = sys.nextId := by rw [← heq]
        have hper : t'.periodMs = f.autoRefreshInterval * 1000 := by rw [← heq]
        refine ⟨?_, hper⟩
        intro hcontr
        rw [hid] at hcontr
        have := hold.2
        omega

/-- C8 (witness): at boot with nothing stored, no timer runs (the default
state is not armed); enabling auto-refresh and selecting a project — a
dependency change — starts a timer with a 30 s period. -/
theorem C8_witness :
    ((effectStep (initTimer .absent)
        { defaultFilters with autoRefreshEnabled := true, projectKey := some "p" }).timer.isSome = true
      ↔ Armed { defaultFilters with autoRefreshEnabled := true, projectKey := some "p" })
    ∧ applyOp 7 defaultFilters .timerTick = applyOp 7 defaultFilters .triggerRefresh := by
  refine ⟨(C8_scheduler.2.1 (initTimer .absent)
      { defaultFilters with autoRefreshEnabled := true, projectKey := some "p" }
      ?_ (by decide)).1,
    (C8_scheduler.2.2 7 defaultFilters).1⟩
  exact effectTimer_inv 0 _

/-! ### Funnel step validation (FunnelPage) -/

theorem string_length_pos_iff (s : String) : 0 < s.length ↔ s ≠ "" := by
  cases s with
  | mk data =>
    cases data with
    | nil => simp [String.length]
    | cons c cs =>
      refine ⟨fun _ h2 => ?_, fun _ => ?_⟩
      · exact absurd (congrArg String.data h2) (by simp)
      · show 0 < (c :: cs).length
        simp

/-- JavaScript `String.prototype.trim()`: strip whitespace from both ends.
Defined structurally on the character list so that it evaluates by kernel
reduction (Lean's own `String.trim` is defined by well-founded recursion). -/
def trim (s : String) : String :=
  ⟨(((s.data.dropWhile Char.isWhitespace).reverse.dropWhile Char.isWhitespace).reverse : List Char)⟩

/-- The `duplicates` computation inside `validateSteps`: the entries of the
trimmed list whose first occurrence is at a strictly earlier index
(`trimmedSteps.indexOf(step) !== index`), kept in list order. -/
def duplicatesOf (trimmedSteps : List String) : List String :=
  (trimmedSteps.enum.filter fun p => trimmedSteps.indexOf p.2 != p.1).map Prod.snd

/-- `validateSteps` from FunnelPage: too few steps, then blank (whitespace
only) steps, then duplicates among the trimmed steps, in that order;
`none` when the list is acceptable. The source computes
`trimmedSteps = steps.map(trim).filter(length > 0)` once and reuses it; it
is inlined here. -/
def validateSteps (stepsToValidate : List String) : Option String :=
  if stepsToValidate.length < 2 then
    some "At least 2 steps are required"
  else if ((stepsToValidate.map trim).filter fun s => decide (0 < s.length)).length
      ≠ stepsToValidate.length then
    some "Steps cannot be empty or whitespace only"
  else if 0 < (duplicatesOf ((stepsToValidate.map trim).filter
      fun s => decide (0 < s.length))).length then
    some ("Duplicate steps found: "
      ++ String.intercalate ", " (duplicatesOf ((stepsToValidate.map trim).filter
          fun s => decide (0 < s.length))))
  else
    none

theorem trim_filter_eq_of_no_blank {l : List String} (h : ∀ s ∈ l, trim s ≠ "") :
    (l.map trim).filter (fun s => decide (0 < s.length)) = l.map trim := by
  apply List.filter_eq_self.2
  intro x hx
  obtain ⟨s, hs, rfl⟩ := List.mem_map.1 hx
  simp only [decide_eq_true_eq, string_length_pos_iff]
  exact h s hs

theorem duplicatesOf_eq_nil_iff (l : List String) : duplicatesOf l = [] ↔ l.Nodup := by
  unfold duplicatesOf
  rw [List.map_eq_nil_iff, List.filter_eq_nil_iff]
  constructor
  · intro H
    rw [List.nodup_iff_injective_getElem]
    rintro ⟨i, hi⟩ ⟨j, hj⟩ hij
    simp only at hij
    have hi' := H (i, l[i]) (List.mem_enum_iff_getElem?.2 (by simp [hi]))
    have hj' := H (j, l[j]) (List.mem_enum_iff_getElem?.2 (by simp [hj]))
    simp only [bne_iff_ne, ne_eq, not_not] at hi' hj'
    apply Fin.ext
    show i = j
    calc i = List.indexOf l[i] l := hi'.symm
      _ = List.indexOf l[j] l := by rw [hij]
      _ = j := hj'
  · intro H p hp
    obtain ⟨i, x⟩ := p
    have hx := List.mem_enum_iff_getElem?.1 hp
    obtain ⟨hlt, hval⟩ := List.getElem?_eq_some_iff.1 hx
    have hlt' : i < l.length := hlt
    have hval' : l.get ⟨i, hlt'⟩ = x := hval
    simp only [bne_iff_ne, ne_eq, not_not]
    show List.indexOf x l = i
    rw [← hval']
    exact List.indexOf_getElem H i hlt'

theorem two_le_count_of_pair {α : Type} [DecidableEq α] :
    ∀ (l : List α) (a : α) (i j : Nat) (hij : i < j) (hj : j < l.length),
      l.get ⟨i, lt_trans hij hj⟩ = a → l.get ⟨j, hj⟩ = a → 2 ≤ l.count a := by
  intro l
  induction l with
  | nil => intro a i j _ hj; simp at hj
  | cons x t ih =>
    intro a i j hij hj hi' hj'
    cases i with
    | zero =>
      cases j with
      | zero => omega
      | succ m =>
        have hxa : x = a := hi'
        have hmem : a ∈ t := by
          have hm : t.get ⟨m, by simpa using hj⟩ = a := hj'
          rw [← hm]
          exact List.get_mem t m _
        have hpos : 0 < t.count a := List.count_pos_iff.2 hmem
        rw [hxa]
        simp only [List.count_cons_self]
        omega
    | succ k =>
      cases j with
      | zero => omega
      | succ m =>
        have h2 : 2 ≤ t.count a :=
          ih a k m (by omega) (by simpa using hj) hi' hj'
        calc 2 ≤ t.count a := h2
          _ ≤ (x :: t).count a := by
            rw [List.count_cons]
            omega

theorem count_of_mem_duplicatesOf {l : List String} {s : String}
    (h : s ∈ duplicatesOf l) : 2 ≤ l.count s := by
  unfold duplicatesOf at h
  obtain ⟨p, hp, rfl⟩ := List.mem_map.1 h
  obtain ⟨hpe, hpred⟩ := List.mem_filter.1 hp
  obtain ⟨i, x⟩ := p
  have hx := List.mem_enum_iff_getElem?.1 hpe
  obtain ⟨hlt, hval⟩ := List.getElem?_eq_some_iff.1 hx
  have hlt' : i < l.length := hlt
  have hval' : l.get ⟨i, hlt'⟩ = x := hval
  simp only [bne_iff_ne, ne_eq] at hpred
  show 2 ≤ l.count x
  have hmem : x ∈ l := by rw [← hval']; exact List.get_mem l i _
  have hjlt : List.indexOf x l < l.length := List.indexOf_lt_length.2 hmem
  have hjval : l.get ⟨List.indexOf x l, hjlt⟩ = x := List.getElem_indexOf hjlt
  have hpred' : ¬List.indexOf x l = i := hpred
  rcases lt_or_gt_of_ne hpred' with hlt2 | hgt2
  · exact two_le_count_of_pair l x (List.indexOf x l) i hlt2 hlt' hjval hval'
  · exact two_le_count_of_pair l x i (List.indexOf x l) hgt2 hjlt hval' hjval

theorem validateSteps_short {l : List String} (h : l.length < 2) :
    validateSteps l = some "At least 2 steps are required" := by
  unfold validateSteps
  rw [if_pos h]

theorem validateSteps_blank {l : List String} (h1 : 2 ≤ l.length)
    (h2 : ∃ s ∈ l, trim s = "") :
    validateSteps l = some "Steps cannot be empty or whitespace only" := by
  unfold validateSteps
  rw [if_neg (by omega), if_pos ?_]
  obtain ⟨s, hs, hs0⟩ := h2
  intro hlen
  rw [show l.length = (l.map trim).length from (List.length_map l trim).symm,
    List.filter_length_eq_length] at hlen
  have := hlen (trim s) (List.mem_map_of_mem _ hs)
  simp only [decide_eq_true_eq, string_length_pos_iff] at this
  exact this hs0

theorem validateSteps_dup {l : List String} (h1 : 2 ≤ l.length)
    (h2 : ∀ s ∈ l, trim s ≠ "") (h3 : ¬(l.map trim).Nodup) :
    validateSteps l = some ("Duplicate steps found: "
      ++ String.intercalate ", " (duplicatesOf (l.map trim))) := by
  unfold validateSteps
  have hfil := trim_filter_eq_of_no_blank h2
  rw [if_neg (by omega), if_neg (by rw [hfil, List.length_map]; omega), hfil, if_pos ?_]
  have hne : duplicatesOf (l.map trim) ≠ [] := by
    intro hnil
    exact h3 ((duplicatesOf_eq_nil_iff _).1 hnil)
  exact List.length_pos.2 hne

theorem validateSteps_none_iff (l : List String) :
    validateSteps l = none ↔
      2 ≤ l.length ∧ (∀ s ∈ l, trim s ≠ "") ∧ (l.map trim).Nodup := by
  constructor
  · intro h
    by_cases h1 : l.length < 2
    · rw [validateSteps_short h1] at h
      cases h
    · have h1' : 2 ≤ l.length := by omega
      by_cases h2 : ∀ s ∈ l, trim s ≠ ""
      · by_cases h3 : (l.map trim).Nodup
        · exact ⟨h1', h2, h3⟩
        · rw [validateSteps_dup h1' h2 h3] at h
          cases h
      · push_neg at h2
        obtain ⟨s, hs, hs0⟩ := h2
        rw [validateSteps_blank h1' ⟨s, hs, hs0⟩] at h
        cases h
  · rintro ⟨h1, h2, h3⟩
    unfold validateSteps
    have hfil := trim_filter_eq_of_no_blank h2
    rw [if_neg (by omega), if_neg (by rw [hfil, List.length_map]; omega), hfil, if_neg ?_]
    have hnil : duplicatesOf (l.map trim) = [] := (duplicatesOf_eq_nil_iff _).2 h3
    rw [hnil]
    simp

/-- C5. `validateSteps` accepts exactly the lists of at least two entries
that are all non-blank after trimming and pairwise distinct after trimming;
the errors are reported in priority order — too few steps first, then blank
steps, then duplicates (naming values that genuinely occur at least twice
among the trimmed entries) — and the four example lists behave as the spec
says. -/
theorem C5_validateSteps :
    (∀ l : List String, validateSteps l = none ↔
        2 ≤ l.length ∧ (∀ s ∈ l, trim s ≠ "") ∧ (l.map trim).Nodup)
    ∧ (∀ l : List String, l.length < 2 →
        validateSteps l = some "At least 2 steps are required")
    ∧ (∀ l : List String, 2 ≤ l.length → (∃ s ∈ l, trim s = "") →
        validateSteps l = some "Steps cannot be empty or whitespace only")
    ∧ (∀ l : List String, 2 ≤ l.length → (∀ s ∈ l, trim s ≠ "") →
        ¬(l.map trim).Nodup →
        validateSteps l = some ("Duplicate steps found: "
          ++ String.intercalate ", " (duplicatesOf (l.map trim)))
        ∧ ∀ s ∈ duplicatesOf (l.map trim), 2 ≤ (l.map trim).count s)
    ∧ validateSteps ["a", "b"] = none
    ∧ validateSteps ["a"] = some "At least 2 steps are required"
    ∧ validateSteps ["a", "a"] = some "Duplicate steps found: a"
    ∧ validateSteps ["a", " "] = some "Steps cannot be empty or whitespace only" := by
  refine ⟨validateSteps_none_iff, fun l h => validateSteps_short h,
    fun l h1 h2 => validateSteps_blank h1 h2,
    fun l h1 h2 h3 => ⟨validateSteps_dup h1 h2 h3,
      fun s hs => count_of_mem_duplicatesOf hs⟩, ?_, ?_, ?_, ?_⟩ <;> decide

/-- C5 (witness): the priority branches of the theorem applied at the
example lists. -/
theorem C5_witness :
    validateSteps ["a"] = some "At least 2 steps are required"
    ∧ validateSteps ["a", " "] = some "Steps cannot be empty or whitespace only"
    ∧ (validateSteps ["a", "b"] = none ↔
        2 ≤ (["a", "b"] : List String).length
        ∧ (∀ s ∈ (["a", "b"] : List String), trim s ≠ "")
        ∧ ((["a", "b"] : List String).map trim).Nodup) :=
  ⟨C5_validateSteps.2.1 ["a"] (by decide),
   C5_validateSteps.2.2.1 ["a", " "] (by decide) ⟨" ", by decide, by decide⟩,
   C5_validateSteps.1 ["a", "b"]⟩

/-! ### Structural step mutations -/

/-- The step-editor state of FunnelPage: the active step list and the
inline `stepError` message. -/
structure StepState where
  steps : List String
  stepError : Option String
  deriving Repr, DecidableEq

/-- `handleAddStep`: trim the input, reject an empty name or an exact
duplicate of an existing step with an inline error, then validate the
extended list and commit it only when validation passes. -/
def handleAddStep (st : StepState) (input : String) : StepState :=
  if trim input = "" then
    { st with stepError := some "Step name cannot be empty" }
  else if st.steps.contains (trim input) then
    { st with stepError := some ("Step \x22" ++ trim input ++ "\x22 already exists") }
  else
    match validateSteps (st.steps ++ [trim input]) with
    | some e => { st with stepError := some e }
    | none => { steps := st.steps ++ [trim input], stepError := none }

/-- `handleRemoveStep`: drop the element at `index`
(`steps.filter((_, i) => i !== index)` is `eraseIdx`), validate the result
and commit it only when validation passes; otherwise keep the previous
steps and surface the error. -/
def handleRemoveStep (st : StepState) (index : Nat) : StepState :=
  match validateSteps (st.steps.eraseIdx index) with
  | some e => { st with stepError := some e }
  | none => { steps := st.steps.eraseIdx index, stepError := none }

/-- Swap the elements at positions `n` and `n+1`; identity when `n+1` is out
of range. -/
def swapAdj : List String → Nat → List String
  | x :: y :: rest, 0 => y :: x :: rest
  | x :: rest, n + 1 => x :: swapAdj rest n
  | l, _ => l

/-- `handleMoveUp`: no-op at index 0, otherwise swap with the previous
element and commit unconditionally — no validation, and `stepError` is left
untouched. The UI renders one button per element, so `index` is always in
range; out-of-range indices are modelled as no-ops. -/
def handleMoveUp (st : StepState) (index : Nat) : StepState :=
  if index = 0 then st
  else { st with steps := swapAdj st.steps (index - 1) }

/-- `handleMoveDown`: no-op at the last index, otherwise swap with the next
element and commit unconditionally — no validation, and `stepError` is left
untouched. Out-of-range indices (never produced by the UI) are modelled as
no-ops. -/
def handleMoveDown (st : StepState) (index : Nat) : StepState :=
  if index = st.steps.length - 1 then st
  else { st with steps := swapAdj st.steps index }

theorem swapAdj_perm (l : List String) : ∀ n, (swapAdj l n).Perm l := by
  induction l with
  | nil => intro n; cases n <;> simp [swapAdj]
  | cons x rest ih =>
    intro n
    cases n with
    | zero =>
      cases rest with
      | nil => simp [swapAdj]
      | cons y r => exact List.Perm.swap x y r
    | succ m =>
      cases rest with
      | nil => exact List.Perm.refl [x]
      | cons y r =>
        show (x :: swapAdj (y :: r) m).Perm (x :: y :: r)
        exact List.Perm.cons x (ih m)

/-- C3. The claim states that removing a step from a 2-element list commits
the 1-element remainder (the minimum-2 rule blocking only execution).
`handleRemoveStep` re-validates the shrunken list and `validateSteps`
rejects it, so the steps stay unchanged: on `["a", "b"]`, removing index 0
keeps `["a", "b"]` and surfaces the too-few-steps error. -/
theorem C3_counterexample :
    (handleRemoveStep { steps := ["a", "b"], stepError := none } 0).steps ≠ ["b"]
    ∧ (handleRemoveStep { steps := ["a", "b"], stepError := none } 0).steps = ["a", "b"]
    ∧ (handleRemoveStep { steps := ["a", "b"], stepError := none } 0).stepError
        = some "At least 2 steps are required" := by
  refine ⟨?_, rfl, rfl⟩
  decide

/-- C3 (amended). Removal is re-validated like the other structural edits:
for every 2-element step list and every valid index, `handleRemoveStep`
rejects the removal — the step list is retained unchanged and the
too-few-steps error is reported — so the minimum-2-steps rule blocks
editing as well as execution. -/
theorem C3_remove_rejected_amended (st : StepState) (i : Nat)
    (h2 : st.steps.length = 2) (hi : i < 2) :
    (handleRemoveStep st i).steps = st.steps
    ∧ (handleRemoveStep st i).stepError = some "At least 2 steps are required" := by
  have hlen : (st.steps.eraseIdx i).length = 1 := by
    rw [List.length_eraseIdx]
    split <;> omega
  have hval : validateSteps (st.steps.eraseIdx i) = some "At least 2 steps are required" :=
    validateSteps_short (by omega)
  unfold handleRemoveStep
  rw [hval]
  exact ⟨rfl, rfl⟩

/-- C3 (witness): the amended theorem applied at `["a", "b"]`, index 1. -/
theorem C3_witness :
    (handleRemoveStep { steps := ["a", "b"], stepError := none } 1).steps = ["a", "b"]
    ∧ (handleRemoveStep { steps := ["a", "b"], stepError := none } 1).stepError
        = some "At least 2 steps are required" :=
  C3_remove_rejected_amended { steps := ["a", "b"], stepError := none } 1 rfl (by decide)

/-- C4. The claim states that all four structural mutations validate the
resulting list and reject it on failure. `handleMoveUp` swaps without
validating: from the (preset-loadable) list `["a", "b", "a"]`, moving
index 1 up commits `["b", "a", "a"]` even though `validateSteps` rejects
that list — the mutation was neither validated nor rejected, and the
previous list is not retained. -/
theorem C4_counterexample :
    (handleMoveUp { steps := ["a", "b", "a"], stepError := none } 1).steps = ["b", "a", "a"]
    ∧ validateSteps ["b", "a", "a"] ≠ none
    ∧ (handleMoveUp { steps := ["a", "b", "a"], stepError := none } 1).steps
        ≠ ["a", "b", "a"] := by
  refine ⟨rfl, ?_, ?_⟩ <;> decide

/-- C4 (amended). `handleAddStep` and `handleRemoveStep` are gates: each
either leaves the step list unchanged (rejection, with an inline error) or
commits a result that `validateSteps` accepts. `handleMoveUp` and
`handleMoveDown` are not: they commit an adjacent swap (a permutation of
the previous list) unconditionally, never run `validateSteps`, and leave
`stepError` untouched. -/
theorem C4_mutation_gating_amended (st : StepState) (input : String) (i : Nat) :
    ((handleAddStep st input).steps = st.steps
      ∨ ((handleAddStep st input).steps = st.steps ++ [trim input]
          ∧ validateSteps (handleAddStep st input).steps = none))
    ∧ ((handleRemoveStep st i).steps = st.steps
      ∨ ((handleRemoveStep st i).steps = st.steps.eraseIdx i
          ∧ validateSteps (handleRemoveStep st i).steps = none))
    ∧ ((handleMoveUp st i).steps.Perm st.steps
        ∧ (handleMoveUp st i).stepError = st.stepError)
    ∧ ((handleMoveDown st i).steps.Perm st.steps
        ∧ (handleMoveDown st i).stepError = st.stepError) := by
  refine ⟨?_, ?_, ?_, ?_⟩
  · unfold handleAddStep
    by_cases h0 : trim input = ""
    · rw [if_pos h0]
      exact Or.inl rfl
    · rw [if_neg h0]
      by_cases h1 : st.steps.contains (trim input) = true
      · rw [if_pos h1]
        exact Or.inl rfl
      · rw [if_neg h1]
        cases hv : validateSteps (st.steps ++ [trim input]) with
        | some e => exact Or.inl rfl
        | none => exact Or.inr ⟨rfl, hv⟩
  · unfold handleRemoveStep
    cases hv : validateSteps (st.steps.eraseIdx i) with
    | some e => exact Or.inl rfl
    | none => exact Or.inr ⟨rfl, hv⟩
  · unfold handleMoveUp
    by_cases h0 : i = 0
    · rw [if_pos h0]
      exact ⟨List.Perm.refl _, rfl⟩
    · rw [if_neg h0]
      exact ⟨swapAdj_perm st.steps (i - 1), rfl⟩
  · unfold handleMoveDown
    by_cases h0 : i = st.steps.length - 1
    · rw [if_pos h0]
      exact ⟨List.Perm.refl _, rfl⟩
    · rw [if_neg h0]
      exact ⟨swapAdj_perm st.steps i, rfl⟩

/-! ### Preset store -/

/-- The `FunnelPreset` record. -/
structure FunnelPreset where
  presetName : String
  steps : List String
  createdAt : String
  deriving Repr, DecidableEq

/-- The list update inside `savePreset`: drop every preset with the same
name, then append the new one
(`[...presets.filter(p => p.presetName !== preset.presetName), preset]`). -/
def savePresetList (presets : List FunnelPreset) (preset : FunnelPreset) : List FunnelPreset :=
  (presets.filter fun p => p.presetName != preset.presetName) ++ [preset]

/-- The per-project preset store: the parsed contents of the
`funnel_presets_<projectKey>` localStorage keys. -/
def PresetStore := String → List FunnelPreset

/-- `savePreset(projectKey, preset)`: a no-op for a falsy (empty) project
key, otherwise rewrite that project's list with `savePresetList`. -/
def savePreset (store : PresetStore) (projectKey : String) (preset : FunnelPreset) :
    PresetStore :=
  if projectKey = "" then store
  else fun k => if k = projectKey then savePresetList (store k) preset else store k

/-- `deletePreset(projectKey, presetName)`: drop every preset with that
name from the project's list. -/
def deletePreset (store : PresetStore) (projectKey : String) (presetName : String) :
    PresetStore :=
  if projectKey = "" then store
  else fun k => if k = projectKey then (store k).filter (fun p => p.presetName != presetName)
    else store k

theorem savePresetList_filter_eq (presets : List FunnelPreset) (p1 p2 : FunnelPreset)
    (hname : p1.presetName = p2.presetName) :
    (savePresetList (savePresetList presets p1) p2).filter
      (fun p => p.presetName == p2.presetName) = [p2] := by
  unfold savePresetList
  simp only [List.filter_append]
  have h1 : List.filter (fun p => p.presetName != p2.presetName) [p1] = [] := by
    simp [hname]
  rw [h1, List.filter_nil, List.append_nil]
  have h3 : ∀ l : List FunnelPreset,
      List.filter (fun p => p.presetName == p2.presetName)
        (List.filter (fun p => p.presetName != p2.presetName) l) = [] := by
    intro l
    apply List.filter_eq_nil_iff.2
    intro p hp
    obtain ⟨-, hpred⟩ := List.mem_filter.1 hp
    simp only [bne_iff_ne, ne_eq] at hpred
    simp only [beq_iff_eq]
    exact hpred
  rw [h3, List.nil_append]
  simp

/-- C9. Saving is an upsert keyed by `presetName`: for every (non-empty)
project and any two saves under the same name, the project's resulting list
holds exactly one preset with that name — the later one, carrying the later
steps — and other projects' lists are untouched. -/
theorem C9_savePreset_upsert (store : PresetStore) (projectKey : String)
    (p1 p2 : FunnelPreset) (hproj : projectKey ≠ "")
    (hname : p1.presetName = p2.presetName) :
    ((savePreset (savePreset store projectKey p1) projectKey p2 projectKey).filter
        (fun p => p.presetName == p2.presetName) = [p2])
    ∧ ((savePreset (savePreset store projectKey p1) projectKey p2 projectKey).countP
        (fun p => p.presetName == p2.presetName) = 1)
    ∧ (∀ k, k ≠ projectKey →
        savePreset (savePreset store projectKey p1) projectKey p2 k = store k) := by
  have hstep : savePreset (savePreset store projectKey p1) projectKey p2 projectKey
      = savePresetList (savePresetList (store projectKey) p1) p2 := by
    unfold savePreset
    rw [if_neg hproj, if_neg hproj]
    simp
  refine ⟨?_, ?_, ?_⟩
  · rw [hstep]
    exact savePresetList_filter_eq (store projectKey) p1 p2 hname
  · rw [List.countP_eq_length_filter, hstep,
      savePresetList_filter_eq (store projectKey) p1 p2 hname]
    rfl
  · intro k hk
    unfold savePreset
    rw [if_neg hproj, if_neg hproj]
    simp [hk]

/-- C9 (witness): two saves named "A" into an empty store for project
"proj"; the survivor carries the later steps. -/
theorem C9_witness :
    ((savePreset (savePreset (fun _ => []) "proj"
        { presetName := "A", steps := ["x", "y"], createdAt := "t1" }) "proj"
        { presetName := "A", steps := ["z"], createdAt := "t2" } "proj").filter
      (fun p => p.presetName == "A") =
        [{ presetName := "A", steps := ["z"], createdAt := "t2" }]) :=
  (C9_savePreset_upsert (fun _ => []) "proj"
    { presetName := "A", steps := ["x", "y"], createdAt := "t1" }
    { presetName := "A", steps := ["z"], createdAt := "t2" }
    (by decide) rfl).1

/-! ### Preset loading -/

/-- `handleLoadPreset`: replace the active steps with the preset's steps
verbatim whenever it has at least 2 steps (clearing the inline error); no
`validateSteps` call. -/
def handleLoadPreset (st : StepState) (preset : FunnelPreset) : StepState :=
  if 2 ≤ preset.steps.length then { steps := preset.steps, stepError := none }
  else st

/-- The automatic load on project selection: find a preset named "Default"
among the loaded presets and, when it has at least 2 steps, replace the
active steps with it verbatim (`stepError` untouched, no validation). -/
def autoLoadDefault (st : StepState) (loadedPresets : List FunnelPreset) : StepState :=
  match loadedPresets.find? (fun p => p.presetName == "Default") with
  | some dp => if 2 ≤ dp.steps.length then { st with steps := dp.steps } else st
  | none => st

/-- C10. Loading a preset with at least 2 steps — explicitly, or through
the automatic "Default" load on project selection — installs the preset's
steps verbatim with no validation: in particular a stored preset whose
steps are blank or duplicated becomes the active step list even though
`validateSteps` rejects it. -/
theorem C10_load_skips_validation (st : StepState) (preset : FunnelPreset)
    (presets : List FunnelPreset) (h2 : 2 ≤ preset.steps.length)
    (hfind : presets.find? (fun p => p.presetName == "Default") = some preset) :
    (handleLoadPreset st preset).steps = preset.steps
    ∧ (autoLoadDefault st presets).steps = preset.steps
    ∧ (validateSteps preset.steps ≠ none →
        validateSteps (handleLoadPreset st preset).steps ≠ none) := by
  have hload : (handleLoadPreset st preset).steps = preset.steps := by
    unfold handleLoadPreset
    rw [if_pos h2]
  refine ⟨hload, ?_, fun hbad => by rw [hload]; exact hbad⟩
  unfold autoLoadDefault
  rw [hfind]
  show (if 2 ≤ preset.steps.length then ({ st with steps := preset.steps } : StepState)
    else st).steps = preset.steps
  rw [if_pos h2]

/-- C10 (witness): the duplicate-ridden preset `["a", "a"]` named "Default"
is loaded verbatim both ways, and the installed list is invalid. -/
theorem C10_witness :
    (handleLoadPreset { steps := ["x", "y"], stepError := none }
        { presetName := "Default", steps := ["a", "a"], createdAt := "t" }).steps = ["a", "a"]
    ∧ (autoLoadDefault { steps := ["x", "y"], stepError := none }
        [{ presetName := "Default", steps := ["a", "a"], createdAt := "t" }]).steps = ["a", "a"]
    ∧ (validateSteps
        (handleLoadPreset { steps := ["x", "y"], stepError := none }
          { presetName := "Default", steps := ["a", "a"], createdAt := "t" }).steps ≠ none) :=
  let st : StepState := { steps := ["x", "y"], stepError := none }
  let dp : FunnelPreset := { presetName := "Default", steps := ["a", "a"], createdAt := "t" }
  have h := C10_load_skips_validation st dp [dp] (by decide) (by decide)
  ⟨h.1, h.2.1, h.2.2 (by decide)⟩

/-! ### Funnel metrics -/

/-- `calculateDropOff`: percentage dropped from the previous step; 0 when
the previous count is 0 (explicit guard, not a division error). JavaScript
number arithmetic on these integral counts is modelled in `ℚ`. -/
def calculateDropOff (current previous : ℚ) : ℚ :=
  if previous = 0 then 0 else (previous - current) / previous * 100

/-- `calculateConversionRate`: percentage converted from the previous step;
0 when the previous count is 0. -/
def calculateConversionRate (current previous : ℚ) : ℚ :=
  if previous = 0 then 0 else current / previous * 100

/-- `calculateBarWidth`: percentage relative to the first step; 0 when the
first count is 0. -/
def calculateBarWidth (current first : ℚ) : ℚ :=
  if first = 0 then 0 else current / first * 100

/-- One step of the funnel API response. -/
structure FunnelRespStep where
  eventName : String
  users : ℚ
  deriving Repr, DecidableEq

/-- One processed `FunnelStep`: `dropOff` and `conversionRate` are
`undefined` at index 0. -/
structure ProcessedStep where
  eventName : String
  users : ℚ
  dropOff : Option ℚ
  conversionRate : Option ℚ
  barWidth : ℚ
  deriving Repr, DecidableEq

/-- `previousUsers` in the `processedSteps` map:
`index > 0 ? response.steps[index - 1].users : step.users`. -/
def previousUsersAt (respSteps : List FunnelRespStep) (index : Nat)
    (step : FunnelRespStep) : ℚ :=
  if 0 < index then ((respSteps[index - 1]?).map FunnelRespStep.users).getD step.users
  else step.users

/-- `firstUsers = response.steps[0].users` (the map runs over a non-empty
list, so the index is always valid; `getD 0` is never reached). -/
def firstUsersOf (respSteps : List FunnelRespStep) : ℚ :=
  ((respSteps[0]?).map FunnelRespStep.users).getD 0

/-- The `processedSteps` computation of `loadFunnel`: per-index derived
metrics, with `dropOff`/`conversionRate` undefined at index 0. -/
def processSteps (respSteps : List FunnelRespStep) : List ProcessedStep :=
  respSteps.mapIdx fun index step =>
    { eventName := step.eventName
      users := step.users
      dropOff := if 0 < index then
          some (calculateDropOff step.users (previousUsersAt respSteps index step))
        else none
      conversionRate := if 0 < index then
          some (calculateConversionRate step.users (previousUsersAt respSteps index step))
        else none
      barWidth := calculateBarWidth step.users (firstUsersOf respSteps) }

theorem processSteps_example :
    processSteps
        [{ eventName := "a", users := 1000 }, { eventName := "b", users := 400 },
          { eventName := "c", users := 100 }]
      = [{ eventName := "a", users := 1000, dropOff := none, conversionRate := none,
            barWidth := 100 },
          { eventName := "b", users := 400, dropOff := some 60, conversionRate := some 40,
            barWidth := 40 },
          { eventName := "c", users := 100, dropOff := some 75, conversionRate := some 25,
            barWidth := 10 }] := by
  unfold processSteps previousUsersAt firstUsersOf calculateDropOff calculateConversionRate
    calculateBarWidth
  norm_num [List.mapIdx_eq_enum_map, List.enum, List.enumFrom]

/-- C2. The derived funnel metrics: lengths agree; names and counts pass
through; at index 0 drop-off and conversion rate are undefined; at index
`i > 0` they are `(c_{i-1} - c_i) / c_{i-1} * 100` and
`c_i / c_{i-1} * 100` (0 when `c_{i-1} = 0`); the bar width at every index
is `c_i / c_0 * 100` (0 when `c_0 = 0`); a 0 divisor yields 0 in each raw
helper; and the input counts `[1000, 400, 100]` give drop-off
`[undefined, 60, 75]`, conversion `[undefined, 40, 25]` and bar width
`[100, 40, 10]`. -/
theorem C2_funnel_metrics :
    (∀ l : List FunnelRespStep, (processSteps l).length = l.length)
    ∧ (∀ (l : List FunnelRespStep) (i : Nat) (s : FunnelRespStep) (p : ProcessedStep),
        l[i]? = some s → (processSteps l)[i]? = some p →
        (p.eventName = s.eventName ∧ p.users = s.users)
        ∧ (i = 0 → p.dropOff = none ∧ p.conversionRate = none)
        ∧ (0 < i → ∀ sprev : FunnelRespStep, l[i - 1]? = some sprev →
            p.dropOff = some (if sprev.users = 0 then 0
              else (sprev.users - s.users) / sprev.users * 100)
            ∧ p.conversionRate = some (if sprev.users = 0 then 0
              else s.users / sprev.users * 100))
        ∧ (∀ s0 : FunnelRespStep, l[0]? = some s0 →
            p.barWidth = if s0.users = 0 then 0 else s.users / s0.users * 100))
    ∧ (∀ c : ℚ, calculateDropOff c 0 = 0 ∧ calculateConversionRate c 0 = 0
        ∧ calculateBarWidth c 0 = 0)
    ∧ ((processSteps
          [{ eventName := "a", users := 1000 }, { eventName := "b", users := 400 },
            { eventName := "c", users := 100 }]).map ProcessedStep.dropOff
        = [none, some 60, some 75]
      ∧ (processSteps
          [{ eventName := "a", users := 1000 }, { eventName := "b", users := 400 },
            { eventName := "c", users := 100 }]).map ProcessedStep.conversionRate
        = [none, some 40, some 25]
      ∧ (processSteps
          [{ eventName := "a", users := 1000 }, { eventName := "b", users := 400 },
            { eventName := "c", users := 100 }]).map ProcessedStep.barWidth
        = [100, 40, 10]) := by
  refine ⟨fun l => ?_, fun l i s p hs hp => ?_, fun c => ⟨rfl, rfl, rfl⟩,
    by rw [processSteps_example]; rfl, by rw [processSteps_example]; rfl,
    by rw [processSteps_example]; rfl⟩
  · unfold processSteps
    exact List.length_mapIdx
  · have hp' : p =
        { eventName := s.eventName,
          users := s.users,
          dropOff := if 0 < i then
            some (calculateDropOff s.users (previousUsersAt l i s)) else none,
          conversionRate := if 0 < i then
            some (calculateConversionRate s.users (previousUsersAt l i s)) else none,
          barWidth := calculateBarWidth s.users (firstUsersOf l) } := by
      unfold processSteps at hp
      rw [List.getElem?_mapIdx, hs] at hp
      exact (Option.some.inj hp).symm
    subst hp'
    refine ⟨⟨rfl, rfl⟩, fun h0 => ?_, fun hpos sprev hsprev => ?_, fun s0 hs0 => ?_⟩
    · subst h0
      exact ⟨rfl, rfl⟩
    · have hprev : previousUsersAt l i s = sprev.users := by
        unfold previousUsersAt
        rw [if_pos hpos, hsprev]
        rfl
      rw [if_pos hpos, if_pos hpos, hprev]
      unfold calculateDropOff calculateConversionRate
      exact ⟨rfl, rfl⟩
    · have hfirst : firstUsersOf l = s0.users := by
        unfold firstUsersOf
        rw [hs0]
        rfl
      show calculateBarWidth s.users (firstUsersOf l) = _
      rw [hfirst]
      unfold calculateBarWidth
      rfl

/-- C2 (witness): the per-index conjunct applied to the example response at
index 1 — the processed step there has drop-off
`(1000 - 400) / 1000 * 100`. -/
theorem C2_witness :
    ({ eventName := "b", users := 400, dropOff := some 60, conversionRate := some 40,
        barWidth := 40 } : ProcessedStep).dropOff
      = some (if (1000 : ℚ) = 0 then 0 else ((1000 : ℚ) - 400) / 1000 * 100) :=
  ((C2_funnel_metrics.2.1
      [{ eventName := "a", users := 1000 }, { eventName := "b", users := 400 },
        { eventName := "c", users := 100 }] 1 { eventName := "b", users := 400 }
      { eventName := "b", users := 400, dropOff := some 60, conversionRate := some 40,
        barWidth := 40 }
      (by decide) (by rw [processSteps_example]; rfl)).2.2.1 (by decide)
    { eventName := "a", users := 1000 } (by decide)).1

end Apptracker
